import Mathlib

/-!
# X11 forwarding example (`example/x11.c`): relay registry and event loop

A shallow embedding of the C functions `remove_node`, `x11_callback`,
`x11_send_receive` and the event loop of `main`.

* The chained list `gp_x11_chan` is kept as C keeps it: nodes live in a heap
  indexed by address, every node carries a `next` pointer, and the global
  head pointer is part of the state.  `free` clears a heap cell; touching a
  cleared cell or NULL is a fault.
* Loops over pointers take a step budget (`fuel`); running out of it is the
  fault `out_of_fuel`, so that a loop which never ends is visible as
  "out of fuel for every budget".
* Calls into libssh2 and the operating system are external: every call's
  result is read from an environment record, and the calls that move data
  are written to an event trace.  The event loop returns its trace also
  when the run ends in a fault, so that the calls made before the fault
  stay visible.
-/

namespace X11

/-! ## Data model -/

/-- Handle of a libssh2 channel (`LIBSSH2_CHANNEL *`). -/
abbrev LIBSSH2_CHANNEL := Nat

/-- Socket descriptor (`libssh2_socket_t`, an `int` on the platforms built). -/
abbrev libssh2_socket_t := Int

/-- The value `LIBSSH2_INVALID_SOCKET`. -/
def LIBSSH2_INVALID_SOCKET : libssh2_socket_t := -1

/-- One node of the chained list: `struct chan_X11_list`.  `next = none` is
the NULL pointer. -/
structure chan_X11_list where
  chan : LIBSSH2_CHANNEL
  sock : libssh2_socket_t
  next : Option Nat
  deriving DecidableEq, Repr

/-- The list nodes in memory together with the global head `gp_x11_chan`.
`heap a = none` means that no live node is stored at address `a`. -/
structure Registry where
  heap : Nat → Option chan_X11_list
  gp_x11_chan : Option Nat

/-- Ways in which a run of the C code fails to produce a result. -/
inductive Fault where
  | out_of_fuel
  | invalid_pointer
  deriving DecidableEq, Repr

/-- Calls that move data or change a collaborator, in program order. -/
inductive Event where
  | channel_read (channel : LIBSSH2_CHANNEL) (count : Nat)
  | channel_write (channel : LIBSSH2_CHANNEL) (data : List Nat)
  | channel_free (channel : LIBSSH2_CHANNEL)
  | request_pty_size (channel : LIBSSH2_CHANNEL) (cols rows : Nat)
  | sock_read (sock : libssh2_socket_t) (count : Nat)
  | sock_write (sock : libssh2_socket_t) (data : List Nat)
  | sock_shutdown (sock : libssh2_socket_t)
  | sock_close (sock : libssh2_socket_t)
  | stdin_read (count : Nat)
  | stdout_write (data : List Nat)
  | stderr_write (msg : String)
  | normal_mode
  deriving DecidableEq, Repr

/-- Heap after writing node `nd` at address `a`. -/
def store (heap : Nat → Option chan_X11_list) (a : Nat) (nd : chan_X11_list) :
    Nat → Option chan_X11_list :=
  fun b => if b = a then some nd else heap b

/-- The call `free(p)` on a list node: `free(NULL)` does nothing, freeing an
address that holds no live node is a fault. -/
def free (st : Registry) (p : Option Nat) : Except Fault Registry :=
  match p with
  | none => .ok st
  | some a =>
    match st.heap a with
    | none => .error .invalid_pointer
    | some _ => .ok { st with heap := fun b => if b = a then none else st.heap b }

/-! ## `remove_node` -/

/-- The `while(current_node->next)` loop of `remove_node`.  The body only
acts when `current_node->next == elem`; otherwise the next iteration starts
with the same `current_node`. -/
def remove_node_loop : Nat → Registry → Nat → Nat → Except Fault Registry
  | 0, _, _, _ => .error .out_of_fuel
  | fuel + 1, st, current_node, elem =>
    match st.heap current_node with
    | none => .error .invalid_pointer
    | some cur =>
      match cur.next with
      | none => .ok st
      | some nx =>
        if nx = elem then
          match st.heap nx with
          | none => .error .invalid_pointer
          | some e =>
            -- current_node->next = current_node->next->next;
            let st1 : Registry :=
              { st with heap := store st.heap current_node { cur with next := e.next } }
            -- current_node = current_node->next; free(current_node); break;
            free st1 e.next
        else
          remove_node_loop fuel st current_node elem

/-- The function `remove_node(elem)`. -/
def remove_node (fuel : Nat) (st : Registry) (elem : Nat) : Except Fault Registry :=
  if st.gp_x11_chan = some elem then
    match st.heap elem with
    | none => .error .invalid_pointer
    | some hd =>
      -- gp_x11_chan = gp_x11_chan->next; free(current_node); return;
      free { st with gp_x11_chan := hd.next } (some elem)
  else
    match st.gp_x11_chan with
    | none => .error .invalid_pointer
    | some current_node => remove_node_loop fuel st current_node elem

/-! ## Reading the registry -/

/-- Addresses of the nodes reached from pointer `p` by following `next`
until NULL: `IsList heap p l` says that this chain is exactly `l` and that
every node on it is live. -/
def IsList (heap : Nat → Option chan_X11_list) : Option Nat → List Nat → Prop
  | p, [] => p = none
  | p, a :: l =>
    p = some a ∧
      match heap a with
      | none => False
      | some nd => IsList heap nd.next l

/-- The `{channel, socket}` pair stored at an address. -/
def pair_at (heap : Nat → Option chan_X11_list) (a : Nat) :
    Option (LIBSSH2_CHANNEL × libssh2_socket_t) :=
  (heap a).map fun nd => (nd.chan, nd.sock)

/-- The pairs stored at a list of addresses, in order. -/
def pairs (heap : Nat → Option chan_X11_list) (l : List Nat) :
    List (LIBSSH2_CHANNEL × libssh2_socket_t) :=
  l.filterMap (pair_at heap)

/-- Walk the chain from `p` and collect the pairs; `none` when the chain
reaches a dead node or does not end within `fuel` steps. -/
def registry_pairs (heap : Nat → Option chan_X11_list) :
    Nat → Option Nat → Option (List (LIBSSH2_CHANNEL × libssh2_socket_t))
  | _, none => some []
  | 0, some _ => none
  | fuel + 1, some a =>
    match heap a with
    | none => none
    | some nd => (registry_pairs heap fuel nd.next).map fun t => (nd.chan, nd.sock) :: t

instance IsList.decidable (heap : Nat → Option chan_X11_list) :
    (l : List Nat) → (p : Option Nat) → Decidable (IsList heap p l)
  | [], p => inferInstanceAs (Decidable (p = none))
  | a :: l, p =>
    match h : heap a with
    | none => isFalse (by simp [IsList, h])
    | some nd =>
      have := IsList.decidable heap l nd.next
      decidable_of_iff (p = some a ∧ IsList heap nd.next l) (by simp [IsList, h])

/-! ## Buffers and external calls -/

/-- What a read-like call (`libssh2_channel_read`, `read`) hands back: its
return value and the bytes it stored at the start of the buffer. -/
structure ReadResult where
  nread : Int
  data : List Nat
  deriving DecidableEq, Repr

/-- A buffer of `n` zero bytes, as `calloc(n, 1)` or `memset(buf, 0, n)`
leaves it. -/
def calloc (n : Nat) : List Nat := List.replicate n 0

/-- Buffer after a read-like call was given `buf` and the length `count`:
the callee stores at most `count` bytes at the start and leaves the rest. -/
def fill (buf : List Nat) (data : List Nat) (count : Nat) : List Nat :=
  data.take count ++ buf.drop (data.take count).length

/-- The bytes that `fprintf(stdout, "%s", buf)` emits: everything before
the first zero byte. -/
def cstring (buf : List Nat) : List Nat := buf.takeWhile fun b => b ≠ 0

/-! ## `x11_send_receive` -/

/-- Results of the external calls made by one `x11_send_receive` call. -/
structure RelayEnv where
  /-- whether `calloc(bufsize, sizeof(char))` returned a buffer -/
  buf : Bool
  /-- whether `malloc(sizeof(LIBSSH2_POLLFD))` returned a descriptor -/
  fds : Bool
  /-- return value of `libssh2_poll(fds, nfds, 0)` -/
  poll_rc : Int
  /-- result of `libssh2_channel_read(channel, buf, bufsize)` -/
  channel_read : ReadResult
  /-- return value of the zero-timeout `select` on the socket -/
  select_rc : Int
  /-- result of `read(sock, buf, bufsize)` -/
  sock_read : ReadResult
  /-- return value of `libssh2_channel_eof(channel)` -/
  eof : Int

/-- The local `bufsize` of `x11_send_receive`. -/
def bufsize : Nat := 8192

/-- The function `x11_send_receive(channel, sock)`: return value and the
reads and writes it performed. -/
def x11_send_receive (env : RelayEnv) (channel : LIBSSH2_CHANNEL)
    (sock : libssh2_socket_t) : Int × List Event :=
  if env.buf = false then (0, [])
  else if env.fds = false then (0, [])
  else
    let buf0 := calloc bufsize
    let ev1 : List Event :=
      if env.poll_rc > 0 then
        let buf1 := fill buf0 env.channel_read.data bufsize
        if env.channel_read.nread > 0 then
          [.channel_read channel bufsize,
           .sock_write sock (buf1.take env.channel_read.nread.toNat)]
        else [.channel_read channel bufsize]
      else []
    if env.select_rc > 0 then
      -- memset(buf, 0, bufsize); nread = read(sock, buf, bufsize);
      let buf2 := fill (calloc bufsize) env.sock_read.data bufsize
      if env.sock_read.nread > 0 then
        let ev2 := ev1 ++ [.sock_read sock bufsize,
          .channel_write channel (buf2.take env.sock_read.nread.toNat)]
        if env.eof = 1 then (-1, ev2) else (0, ev2)
      else (-1, ev1 ++ [.sock_read sock bufsize])
    else
      if env.eof = 1 then (-1, ev1) else (0, ev1)

/-! ## `x11_callback` -/

/-- C `strncmp(s, t, n) == 0` on strings without embedded NUL. -/
def strncmp_eq (s t : List Char) (n : Nat) : Bool := s.take n == t.take n

/-- C `strrchr(s, c)`: the part of `s` that starts at the last `c`. -/
def strrchr : List Char → Char → Option (List Char)
  | [], _ => none
  | x :: t, c =>
    match strrchr t c with
    | some r => some r
    | none => if x = c then some (x :: t) else none

/-- C `isspace` in the "C" locale. -/
def isspace (c : Char) : Bool :=
  c = ' ' || (9 ≤ c.toNat && c.toNat ≤ 13)

/-- Value of the leading decimal digits of a string. -/
def digits_value : List Char → Int → Int
  | [], acc => acc
  | c :: t, acc =>
    if c.isDigit then digits_value t (acc * 10 + ((c.toNat : Int) - 48)) else acc

/-- Value of an optionally signed decimal number after leading white space,
as `strtol(s, NULL, 10)` reads it before any range limit. -/
def decimal_value (s : List Char) : Int :=
  match s.dropWhile isspace with
  | '-' :: t => - digits_value t 0
  | '+' :: t => digits_value t 0
  | t => digits_value t 0

/-- Range limit of `strtol` for a 64-bit `long`: values outside are
replaced by `LONG_MIN` or `LONG_MAX`. -/
def to_long (v : Int) : Int := max (-(2 ^ 63)) (min v (2 ^ 63 - 1))

/-- Conversion of a `long` to a 32-bit `int`: the value modulo `2 ^ 32`,
taken in the range of `int`. -/
def to_int (v : Int) : Int := (v + 2 ^ 31) % 2 ^ 32 - 2 ^ 31

/-- C `atoi`, which is `(int) strtol(s, NULL, 10)`, for a 64-bit `long` and
a 32-bit `int`. -/
def atoi (s : List Char) : Int := to_int (to_long (decimal_value s))

/-- Results of the external calls made by one `x11_callback` call. -/
structure CallbackEnv where
  /-- value of `getenv("DISPLAY")`, `none` for NULL -/
  display : Option (List Char)
  /-- whether the `calloc` for `temp_buff` returned a buffer -/
  temp_buff : Bool
  /-- return value of `socket(AF_UNIX, SOCK_STREAM, 0)` -/
  socket : libssh2_socket_t
  /-- return value of `connect` for a socket and the display number that
  fills `_PATH_UNIX_X` ("/tmp/.X11-unix/X%d") -/
  connect : libssh2_socket_t → Int → Int
  /-- address returned by the `calloc`/`malloc` of the list node, `none`
  for NULL -/
  node : Option Nat

/-- Whether DISPLAY names the local unix domain: the test
`strncmp(display, "unix:", 5) == 0 || display[0] == ':'`. -/
def local_display (display : List Char) : Bool :=
  strncmp_eq display "unix:".toList 5 || display.head? == some ':'

/-- The loop `while(chan_iter->next) chan_iter = chan_iter->next;`. -/
def last_node (heap : Nat → Option chan_X11_list) : Nat → Nat → Except Fault Nat
  | 0, _ => .error .out_of_fuel
  | fuel + 1, chan_iter =>
    match heap chan_iter with
    | none => .error .invalid_pointer
    | some nd =>
      match nd.next with
      | none => .ok chan_iter
      | some nx => last_node heap fuel nx

/-- The branch "Connection Successful" of `x11_callback`: append the node
`{channel, sock}` at the tail of the chained list. -/
def x11_callback_insert (fuel : Nat) (node : Option Nat) (st : Registry)
    (channel : LIBSSH2_CHANNEL) (sock : libssh2_socket_t) : Except Fault Registry :=
  match st.gp_x11_chan with
  | none =>
    match node with
    | none => .error .invalid_pointer
    | some a =>
      .ok { heap := store st.heap a { chan := channel, sock := sock, next := none },
            gp_x11_chan := some a }
  | some hd =>
    match last_node st.heap fuel hd with
    | .error f => .error f
    | .ok chan_iter =>
      match node with
      | none => .error .invalid_pointer
      | some a =>
        let heap1 := store st.heap a { chan := channel, sock := sock, next := none }
        match heap1 chan_iter with
        | none => .error .invalid_pointer
        | some it =>
          .ok { st with heap := store heap1 chan_iter { it with next := some a } }

/-- The function `x11_callback(session, channel, shost, sport, abstract)`:
the registry it leaves and the calls it made. -/
def x11_callback (fuel : Nat) (env : CallbackEnv) (st : Registry)
    (channel : LIBSSH2_CHANNEL) : Except Fault (Registry × List Event) :=
  match env.display with
  | none => .ok (st, [])
  | some display =>
    if local_display display then
      match strrchr display ':' with
      | none => .error .invalid_pointer
      | some ptr =>
        if env.temp_buff = false then .ok (st, [.stderr_write "failed to calloc().\n"])
        else
          let display_port := atoi ptr.tail
          let sock := env.socket
          if sock = LIBSSH2_INVALID_SOCKET then .ok (st, [])
          else
            let rc := env.connect sock display_port
            if rc ≠ -1 then
              match x11_callback_insert fuel env.node st channel sock with
              | .error f => .error f
              | .ok st1 => .ok (st1, [])
            else .ok (st, [.sock_shutdown sock, .sock_close sock])
    else .ok (st, [])

/-! ## The event loop of `main` -/

/-- The loop "Looping on X clients" of `main`, started with `current_node`.
`relay` gives the environment of the `x11_send_receive` call made for a
pair; `rfuel` is the step budget handed to `remove_node`.  The first
component holds the calls made, also those made before a fault; the second
is the registry left by the loop, or the fault. -/
def x11_loop (relay : LIBSSH2_CHANNEL → libssh2_socket_t → RelayEnv) (rfuel : Nat) :
    Nat → Registry → Option Nat → List Event × Except Fault Registry
  | _, st, none => ([], .ok st)
  | 0, _, some _ => ([], .error .out_of_fuel)
  | fuel + 1, st, some current_node =>
    match st.heap current_node with
    | none => ([], .error .invalid_pointer)
    | some nd =>
      let r := x11_send_receive (relay nd.chan nd.sock) nd.chan nd.sock
      let next_node := nd.next
      if r.1 = -1 then
        let ev := r.2 ++ [.sock_shutdown nd.sock, .sock_close nd.sock]
        match remove_node rfuel st current_node with
        | .error f => (ev, .error f)
        | .ok st1 =>
          let t := x11_loop relay rfuel fuel st1 next_node
          (ev ++ t.1, t.2)
      else
        let t := x11_loop relay rfuel fuel st next_node
        (r.2 ++ t.1, t.2)

/-- The fields of `struct winsize` that `main` looks at. -/
structure winsize where
  ws_row : Nat
  ws_col : Nat
  deriving DecidableEq, Repr

/-- Results of the external calls made by one iteration of `for(;;)`. -/
structure TickEnv where
  /-- `w_size` after `ioctl(fileno(stdin), TIOCGWINSZ, &w_size)` -/
  w_size : winsize
  /-- whether `calloc(bufsiz, sizeof(char))` returned a buffer -/
  buf : Bool
  /-- whether `malloc(sizeof(LIBSSH2_POLLFD))` returned a descriptor -/
  fds : Bool
  /-- return value of `libssh2_poll(fds, nfds, 0)` on the shell channel -/
  poll_rc : Int
  /-- result of `libssh2_channel_read(channel, buf, sizeof(buf))` -/
  channel_read : ReadResult
  /-- environments of the `x11_send_receive` calls of this iteration -/
  relay : LIBSSH2_CHANNEL → libssh2_socket_t → RelayEnv
  /-- return value of `select` on stdin -/
  select_rc : Int
  /-- result of `read(fileno(stdin), buf, 1)` -/
  stdin_read : ReadResult
  /-- return value of `libssh2_channel_eof(channel)` -/
  eof : Int

/-- The variables of `main` that live across iterations, with the registry. -/
structure MainState where
  w_size_bck : winsize
  reg : Registry

/-- The two states of the event loop. -/
inductive LoopStatus where
  | RUNNING
  | STOPPED
  deriving DecidableEq, Repr

/-- The local `bufsiz` of `main`. -/
def bufsiz : Nat := 8193

/-- The "resize pty" test at the head of an iteration: the new `w_size_bck`
and the notification sent, if any. -/
def resize_check (channel : LIBSSH2_CHANNEL) (w_size w_size_bck : winsize) :
    winsize × List Event :=
  if w_size.ws_row ≠ w_size_bck.ws_row ∨ w_size.ws_col ≠ w_size_bck.ws_col then
    (w_size, [.request_pty_size channel w_size.ws_col w_size.ws_row])
  else (w_size_bck, [])

/-- One iteration of `for(;;)` in `main`.  `sizeof_buf` is the value of
`sizeof(buf)`, the size of a `char *`.  The status is `STOPPED` when the
iteration leaves the loop through a `break`.  The first component holds
the calls made, also those made before a fault in the loop over the X
clients. -/
def main_tick (sizeof_buf fuel : Nat) (channel : LIBSSH2_CHANNEL) (e : TickEnv)
    (s : MainState) : List Event × Except Fault (MainState × LoopStatus) :=
  let rs := resize_check channel e.w_size s.w_size_bck
  if e.buf = false then (rs.2, .ok ({ s with w_size_bck := rs.1 }, .STOPPED))
  else if e.fds = false then (rs.2, .ok ({ s with w_size_bck := rs.1 }, .STOPPED))
  else
    let buf0 := calloc bufsiz
    let buf1 := if e.poll_rc > 0 then fill buf0 e.channel_read.data sizeof_buf else buf0
    let ev1 : List Event :=
      if e.poll_rc > 0 then
        [.channel_read channel sizeof_buf, .stdout_write (cstring buf1)]
      else []
    let t := x11_loop e.relay fuel fuel s.reg s.reg.gp_x11_chan
    match t.2 with
    | .error f => (rs.2 ++ ev1 ++ t.1, .error f)
    | .ok reg1 =>
      let ev3 : List Event :=
        if e.select_rc > 0 then
          let buf2 := fill buf1 e.stdin_read.data 1
          if e.stdin_read.nread > 0 then
            [.stdin_read 1, .channel_write channel (buf2.take sizeof_buf)]
          else [.stdin_read 1]
        else []
      (rs.2 ++ ev1 ++ t.1 ++ ev3,
        .ok ({ w_size_bck := rs.1, reg := reg1 }, if e.eof = 1 then .STOPPED else .RUNNING))

/-- The loop `for(;;)` of `main`, run on the iterations whose environments
are given.  The status is `RUNNING` when all of them were run without
reaching a `break`. -/
def main_loop (sizeof_buf fuel : Nat) (channel : LIBSSH2_CHANNEL) :
    List TickEnv → MainState → List Event × Except Fault (MainState × LoopStatus)
  | [], s => ([], .ok (s, .RUNNING))
  | e :: es, s =>
    let t := main_tick sizeof_buf fuel channel e s
    match t.2 with
    | .error f => (t.1, .error f)
    | .ok (s1, .STOPPED) => (t.1, .ok (s1, .STOPPED))
    | .ok (s1, .RUNNING) =>
      let r := main_loop sizeof_buf fuel channel es s1
      (t.1 ++ r.1, r.2)

/-- The part of `main` from the two `memset` calls before the loop to its
`return 0`: the loop, then `libssh2_channel_free` and `_normal_mode`. -/
def main (sizeof_buf fuel : Nat) (channel : LIBSSH2_CHANNEL) (envs : List TickEnv)
    (reg : Registry) : List Event × Except Fault (MainState × LoopStatus) :=
  let r := main_loop sizeof_buf fuel channel envs { w_size_bck := ⟨0, 0⟩, reg := reg }
  match r.2 with
  | .error f => (r.1, .error f)
  | .ok (s, .RUNNING) => (r.1, .ok (s, .RUNNING))
  | .ok (s, .STOPPED) => (r.1 ++ [.channel_free channel, .normal_mode], .ok (s, .STOPPED))

/-! ## Sample states -/

/-- A heap holding three nodes at addresses 10, 20 and 30, chained in this
order. -/
def heap3 : Nat → Option chan_X11_list := fun a =>
  if a = 10 then some { chan := 1, sock := 5, next := some 20 }
  else if a = 20 then some { chan := 2, sock := 6, next := some 30 }
  else if a = 30 then some { chan := 3, sock := 7, next := none }
  else none

/-- The registry of three live pairs `(1,5)`, `(2,6)`, `(3,7)`. -/
def reg3 : Registry := { heap := heap3, gp_x11_chan := some 10 }

/-- A relay environment in which neither side has data and the channel is
not at end-of-stream. -/
def idle : RelayEnv :=
  { buf := true, fds := true, poll_rc := 0, channel_read := ⟨0, []⟩,
    select_rc := 0, sock_read := ⟨0, []⟩, eof := 0 }

/-- A relay environment in which the socket is readable and its `read`
returns 0: the X client closed the connection. -/
def closed : RelayEnv :=
  { buf := true, fds := true, poll_rc := 0, channel_read := ⟨0, []⟩,
    select_rc := 1, sock_read := ⟨0, []⟩, eof := 0 }

/-- A relay environment in which the channel is at end-of-stream and the
transfer buffer cannot be allocated. -/
def eof_no_buffer : RelayEnv :=
  { buf := false, fds := true, poll_rc := 0, channel_read := ⟨0, []⟩,
    select_rc := 0, sock_read := ⟨0, []⟩, eof := 1 }

/-- A relay environment in which neither side has data and the channel is at
end-of-stream. -/
def idle_eof : RelayEnv :=
  { buf := true, fds := true, poll_rc := 0, channel_read := ⟨0, []⟩,
    select_rc := 0, sock_read := ⟨0, []⟩, eof := 1 }

/-- The registry of one live pair `(1,5)`, stored at address 10. -/
def reg1 : Registry :=
  { heap := fun a => if a = 10 then some { chan := 1, sock := 5, next := none } else none,
    gp_x11_chan := some 10 }

/-- A callback environment with `DISPLAY=:0` in which every external call
succeeds: `socket` returns `sock` and the new node is placed at `addr`. -/
def local_env (sock : libssh2_socket_t) (addr : Nat) : CallbackEnv :=
  { display := some [':', '0'], temp_buff := true, socket := sock,
    connect := fun _ _ => 0, node := some addr }

/-- A callback environment with `DISPLAY=:0` in which `socket` and
`connect` succeed and the allocation of the list node returns NULL. -/
def null_node_env : CallbackEnv :=
  { display := some [':', '0'], temp_buff := true, socket := 9,
    connect := fun _ _ => 0, node := none }

/-- A callback environment with `DISPLAY=:0` in which the allocation of
`temp_buff` fails. -/
def no_temp_buff_env : CallbackEnv :=
  { display := some [':', '0'], temp_buff := false, socket := 9,
    connect := fun _ _ => 0, node := some 40 }

/-- A relay environment in which the poll descriptor cannot be allocated
while the socket is readable and the channel has data. -/
def no_fds : RelayEnv :=
  { buf := true, fds := false, poll_rc := 1, channel_read := ⟨1, [97]⟩,
    select_rc := 1, sock_read := ⟨1, [98]⟩, eof := 0 }

/-- The registry content after a call of `x11_callback`, read by walking
the chained list for at most `fuel` nodes. -/
def registry_after (fuel : Nat) (r : Except Fault (Registry × List Event)) :
    Option (List (LIBSSH2_CHANNEL × libssh2_socket_t)) :=
  match r with
  | .error _ => none
  | .ok (st, _) => registry_pairs st.heap fuel st.gp_x11_chan

/-- The registry with no forwarded connection. -/
def no_clients : Registry := { heap := fun _ => none, gp_x11_chan := none }

/-- An iteration of the event loop in which the terminal has geometry `w`,
both allocations succeed, nothing is readable and the shell channel is not
at end-of-stream. -/
def quiet (w : winsize) : TickEnv :=
  { w_size := w, buf := true, fds := true, poll_rc := 0, channel_read := ⟨0, []⟩,
    relay := fun _ _ => idle, select_rc := 0, stdin_read := ⟨0, []⟩, eof := 0 }

/-- An iteration in which the transfer buffer cannot be allocated. -/
def no_buffer : TickEnv := { quiet ⟨0, 0⟩ with buf := false }

/-- An iteration in which the shell channel is readable and its read
delivers `data`; `eof` is what `libssh2_channel_eof` returns afterwards. -/
def shell_output (data : List Nat) (eof : Int) : TickEnv :=
  { quiet ⟨0, 0⟩ with poll_rc := 1, channel_read := ⟨data.length, data⟩, eof := eof }

/-- An iteration in which the shell channel delivers the eight bytes
"abcdefgh" and one byte, "x", is read from stdin. -/
def typed_byte : TickEnv :=
  { quiet ⟨0, 0⟩ with
    poll_rc := 1, channel_read := ⟨8, [97, 98, 99, 100, 101, 102, 103, 104]⟩,
    select_rc := 1, stdin_read := ⟨1, [120]⟩ }

/-- What a run of the event loop shows outside: its final status and the
calls it made. -/
def outcome (r : List Event × Except Fault (MainState × LoopStatus)) :
    Option (LoopStatus × List Event) :=
  match r.2 with
  | .error _ => none
  | .ok (_, status) => some (status, r.1)

/-- The resize notifications in a trace, as `(channel, columns, rows)`. -/
def pty_sizes : List Event → List (LIBSSH2_CHANNEL × Nat × Nat)
  | [] => []
  | .request_pty_size c cols rows :: t => (c, cols, rows) :: pty_sizes t
  | _ :: t => pty_sizes t

/-- Whether an iteration leaves the loop: one of the two `break`s after a
failed allocation, or the `break` on `libssh2_channel_eof(channel) == 1`. -/
def leaves_loop (e : TickEnv) : Bool :=
  e.buf = false || e.fds = false || e.eof = 1

/-- The iterations up to and including the first one that leaves the
loop. -/
def ticks_run : List TickEnv → List TickEnv
  | [] => []
  | e :: es => if leaves_loop e then [e] else e :: ticks_run es

/-- The iterations that a run of the loop starts: each one is started when
the one before it came to its end without leaving the loop. -/
def iterations_run (sizeof_buf fuel : Nat) (channel : LIBSSH2_CHANNEL) :
    List TickEnv → MainState → List TickEnv
  | [], _ => []
  | e :: es, s =>
    match (main_tick sizeof_buf fuel channel e s).2 with
    | .ok (s1, .RUNNING) => e :: iterations_run sizeof_buf fuel channel es s1
    | _ => [e]

/-- The resize notifications for a list of geometries, on `channel`. -/
def notifications (channel : LIBSSH2_CHANNEL) (ws : List winsize) :
    List (LIBSSH2_CHANNEL × Nat × Nat) :=
  ws.map fun w => (channel, w.ws_col, w.ws_row)

/-- A DISPLAY value of local form: it starts with "unix:" or with ':'. -/
def local_form (display : List Char) : Prop :=
  ['u', 'n', 'i', 'x', ':'] <+: display ∨ display.head? = some ':'

/-- The geometries of a sequence that differ from the geometry known just
before them, `last` being the one known at the start. -/
def changes : winsize → List winsize → List winsize
  | _, [] => []
  | last, w :: ws => if w ≠ last then w :: changes w ws else changes last ws

/-! ## Lemmas on `remove_node` -/

/-- While `current_node->next` is a node other than `elem`, the loop of
`remove_node` makes no progress: no step budget is enough. -/
theorem remove_node_loop_stuck (fuel : Nat) (st : Registry) (current_node elem nx : Nat)
    (cur : chan_X11_list) (hcur : st.heap current_node = some cur)
    (hnext : cur.next = some nx) (hne : nx ≠ elem) :
    remove_node_loop fuel st current_node elem = .error .out_of_fuel := by
  induction fuel with
  | zero => rfl
  | succ n ih => simp [remove_node_loop, hcur, hnext, hne, ih]

theorem remove_node_stuck (fuel : Nat) (st : Registry) (hd elem nx : Nat)
    (cur : chan_X11_list) (hgp : st.gp_x11_chan = some hd) (hhd : hd ≠ elem)
    (hcur : st.heap hd = some cur) (hnext : cur.next = some nx) (hne : nx ≠ elem) :
    remove_node fuel st elem = .error .out_of_fuel := by
  have h1 : ¬ (some hd = some elem) := by simpa using hhd
  simp only [remove_node, hgp, h1, if_false]
  exact remove_node_loop_stuck fuel st hd elem nx cur hcur hnext hne

/-! ## Claims on `remove_node` and on the loop over the X clients -/

/-- C10, evaluated on the code: in the registry of three pairs, removing the
third node never returns. `remove_node` compares `current_node->next` with
`elem` and, when they differ, starts the next iteration without moving
`current_node`, so for every step budget it is still looping. -/
theorem remove_node_third_diverges :
    ∀ fuel : Nat, remove_node fuel reg3 30 = .error .out_of_fuel := by
  intro fuel
  exact remove_node_stuck fuel reg3 10 30 20 { chan := 1, sock := 5, next := some 20 }
    rfl (by decide) rfl rfl (by decide)

/-- Removing the second of three nodes unlinks it (the head now points to
the third node) but frees the third node; the second stays allocated. -/
theorem remove_node_second_frees_third :
    (remove_node 1 reg3 20).toOption.map
        (fun st => (st.gp_x11_chan, (st.heap 10).map (fun nd => nd.next),
          (st.heap 20).isSome, (st.heap 30).isSome)) =
      some (some 10, some (some 30), true, false) := by
  decide

/-- With three live pairs of which only the second reports terminated, the
pass goes on to the third node after `remove_node` has freed it. -/
theorem x11_loop_second_terminated_faults :
    x11_loop (fun c _ => if c = 2 then closed else idle) 3 3 reg3 reg3.gp_x11_chan =
      ([.sock_read 6 bufsize, .sock_shutdown 6, .sock_close 6], .error .invalid_pointer) := by
  rfl

/-- C1, evaluated on the code: with three live pairs of which only the third
reports terminated, the pass over the X clients never ends, whatever step
budgets the pass and `remove_node` are given: the call
`remove_node(current_node)` for the third node does not return. -/
theorem x11_loop_third_terminated_diverges :
    ∀ fuel rfuel : Nat,
      (x11_loop (fun c _ => if c = 3 then closed else idle) rfuel fuel reg3
        reg3.gp_x11_chan).2 = .error .out_of_fuel := by
  intro fuel rfuel
  have hrm : remove_node rfuel reg3 30 = .error .out_of_fuel :=
    remove_node_stuck rfuel reg3 10 30 20 { chan := 1, sock := 5, next := some 20 }
      rfl (by decide) rfl rfl (by decide)
  match fuel with
  | 0 => rfl
  | 1 => rfl
  | 2 => rfl
  | n + 3 =>
    simp only [reg3] at hrm
    simp [x11_loop, reg3, heap3, x11_send_receive, idle, closed, hrm]

/-! ## Claims on `x11_send_receive` -/

/-- C3 fails as stated: with the channel at end-of-stream, a call whose
transfer buffer cannot be allocated returns 0, not -1. -/
theorem x11_send_receive_eof_no_buffer :
    eof_no_buffer.eof = 1 ∧ (x11_send_receive eof_no_buffer 1 5).1 = 0 := by
  decide

/-- C3 as amended: `x11_send_receive` returns -1 exactly when both
allocations succeeded and either the socket was ready and its read yielded
zero or fewer bytes, or `libssh2_channel_eof` returns 1; in every other case
(an allocation failure included) it returns 0. -/
theorem x11_send_receive_terminated_iff (env : RelayEnv) (channel : LIBSSH2_CHANNEL)
    (sock : libssh2_socket_t) :
    ((x11_send_receive env channel sock).1 = -1 ↔
        env.buf = true ∧ env.fds = true ∧
          ((env.select_rc > 0 ∧ env.sock_read.nread ≤ 0) ∨ env.eof = 1)) ∧
      ((x11_send_receive env channel sock).1 ≠ -1 →
        (x11_send_receive env channel sock).1 = 0) := by
  unfold x11_send_receive
  cases hb : env.buf <;> cases hf : env.fds <;> simp
  by_cases hs : env.select_rc > 0 <;> by_cases hn : env.sock_read.nread > 0 <;>
    by_cases he : env.eof = 1 <;> simp [hs, hn, he]
  all_goals omega

/-- C4 fails as stated: with no data on either side and the channel at
end-of-stream, the call returns -1. -/
theorem x11_send_receive_idle_eof :
    idle_eof.poll_rc ≤ 0 ∧ idle_eof.select_rc ≤ 0 ∧
      (x11_send_receive idle_eof 1 5).1 = -1 := by
  decide

/-- C4 as amended: when `libssh2_poll` reports no readable data and the
zero-timeout `select` reports the socket not readable, `x11_send_receive`
performs no read and no write on the channel or the socket; it returns -1
when both allocations succeeded and the channel is at end-of-stream, and 0
otherwise. -/
theorem x11_send_receive_no_data (env : RelayEnv) (channel : LIBSSH2_CHANNEL)
    (sock : libssh2_socket_t) (hpoll : env.poll_rc ≤ 0) (hselect : env.select_rc ≤ 0) :
    (x11_send_receive env channel sock).2 = [] ∧
      (x11_send_receive env channel sock).1 =
        if env.buf = true ∧ env.fds = true ∧ env.eof = 1 then -1 else 0 := by
  have h1 : ¬ env.poll_rc > 0 := by omega
  have h2 : ¬ env.select_rc > 0 := by omega
  unfold x11_send_receive
  cases hb : env.buf <;> cases hf : env.fds <;> simp [h1, h2]
  by_cases he : env.eof = 1 <;> simp [he]

theorem x11_send_receive_no_data_witness :
    (idle.poll_rc ≤ 0 ∧ idle.select_rc ≤ 0) ∧
      ((x11_send_receive idle 1 5).2 = [] ∧
        (x11_send_receive idle 1 5).1 =
          if idle.buf = true ∧ idle.fds = true ∧ idle.eof = 1 then -1 else 0) :=
  ⟨by decide, x11_send_receive_no_data idle 1 5 (by decide) (by decide)⟩

/-! ## Lemmas on chained lists in the heap -/

theorem IsList_cons_iff (heap : Nat → Option chan_X11_list) (p : Option Nat) (a : Nat)
    (l : List Nat) :
    IsList heap p (a :: l) ↔
      p = some a ∧ ∃ nd, heap a = some nd ∧ IsList heap nd.next l := by
  simp only [IsList]
  cases h : heap a <;> simp

theorem IsList_functional (heap : Nat → Option chan_X11_list) :
    ∀ (l l2 : List Nat) (p : Option Nat), IsList heap p l → IsList heap p l2 → l = l2 := by
  intro l
  induction l with
  | nil =>
    intro l2 p h h2
    cases l2 with
    | nil => rfl
    | cons b t =>
      rw [IsList_cons_iff] at h2
      simp only [IsList] at h
      rw [h] at h2
      exact absurd h2.1 (by simp)
  | cons a t ih =>
    intro l2 p h h2
    rw [IsList_cons_iff] at h
    obtain ⟨hp, nd, hnd, ht⟩ := h
    cases l2 with
    | nil =>
      simp only [IsList] at h2
      rw [h2] at hp
      exact absurd hp (by simp)
    | cons b t2 =>
      rw [IsList_cons_iff] at h2
      obtain ⟨hp2, nd2, hnd2, ht2⟩ := h2
      have hab : b = a := by
        rw [hp] at hp2
        exact (Option.some.inj hp2).symm
      subst hab
      rw [hnd] at hnd2
      have hnn : nd = nd2 := Option.some.inj hnd2
      subst hnn
      rw [ih t2 nd.next ht ht2]

theorem IsList_suffix (heap : Nat → Option chan_X11_list) :
    ∀ (l : List Nat) (p : Option Nat) (b : Nat), IsList heap p l → b ∈ l →
      ∃ l2, IsList heap (some b) (b :: l2) ∧ l2.length < l.length := by
  intro l
  induction l with
  | nil => intro p b _ hb; simp at hb
  | cons a t ih =>
    intro p b h hb
    have h0 := h
    rw [IsList_cons_iff] at h
    obtain ⟨hp, nd, hnd, ht⟩ := h
    rcases List.mem_cons.mp hb with hba | hbt
    · subst hba
      refine ⟨t, ?_, by simp⟩
      rw [hp] at h0
      exact h0
    · obtain ⟨l2, hl2, hlen⟩ := ih nd.next b ht hbt
      exact ⟨l2, hl2, by simp; omega⟩

/-- A NULL-terminated chain never comes back to its first node. -/
theorem IsList_head_not_mem (heap : Nat → Option chan_X11_list) (p : Option Nat) (a : Nat)
    (l : List Nat) (h : IsList heap p (a :: l)) : a ∉ l := by
  intro hmem
  have h0 := h
  rw [IsList_cons_iff] at h
  obtain ⟨hp, nd, hnd, ht⟩ := h
  obtain ⟨l2, hl2, hlen⟩ := IsList_suffix heap l nd.next a ht hmem
  rw [hp] at h0
  have heq := IsList_functional heap (a :: l2) (a :: l) (some a) hl2 h0
  have : l2.length = l.length := by
    have := congrArg List.length heq
    simpa using this
  omega

theorem IsList_live (heap : Nat → Option chan_X11_list) :
    ∀ (l : List Nat) (p : Option Nat) (b : Nat), IsList heap p l → b ∈ l →
      ∃ nd, heap b = some nd := by
  intro l p b h hb
  obtain ⟨l2, hl2, -⟩ := IsList_suffix heap l p b h hb
  rw [IsList_cons_iff] at hl2
  obtain ⟨-, nd, hnd, -⟩ := hl2
  exact ⟨nd, hnd⟩

theorem last_node_spec (heap : Nat → Option chan_X11_list) :
    ∀ (l : List Nat) (fuel hd : Nat), IsList heap (some hd) l → l.length ≤ fuel →
      ∃ x nd, l.getLast? = some x ∧ last_node heap fuel hd = .ok x ∧
        heap x = some nd ∧ nd.next = none := by
  intro l
  induction l with
  | nil =>
    intro fuel hd h _
    simp [IsList] at h
  | cons y t ih =>
    intro fuel hd h hfuel
    rw [IsList_cons_iff] at h
    obtain ⟨hp, ny, hny, ht⟩ := h
    have hy : hd = y := Option.some.inj hp
    subst hy
    cases fuel with
    | zero => simp at hfuel
    | succ f =>
      cases t with
      | nil =>
        simp only [IsList] at ht
        exact ⟨hd, ny, rfl, by simp [last_node, hny, ht], hny, ht⟩
      | cons z t2 =>
        have hz : ny.next = some z := ((IsList_cons_iff heap ny.next z t2).mp ht).1
        rw [hz] at ht
        have hlen : (z :: t2).length ≤ f := by
          simp at hfuel ⊢
          omega
        obtain ⟨x, nd, hlast, hrun, hx, hnext⟩ := ih f z ht hlen
        refine ⟨x, nd, ?_, ?_, hx, hnext⟩
        · rw [List.getLast?_cons_cons]
          exact hlast
        · simp [last_node, hny, hz, hrun]

theorem IsList_append_node (heap : Nat → Option chan_X11_list) (a x : Nat)
    (nd new : chan_X11_list) (hnew : new.next = none) (hx : heap x = some nd)
    (ha : heap a = none) :
    ∀ (l : List Nat) (p : Option Nat), IsList heap p l → l.getLast? = some x →
      IsList (store (store heap a new) x { nd with next := some a }) p (l ++ [a]) := by
  have hax : a ≠ x := by
    intro hc
    rw [hc, hx] at ha
    exact absurd ha (by simp)
  intro l
  induction l with
  | nil => intro p _ hlast; simp at hlast
  | cons y t ih =>
    intro p h hlast
    have h0 := h
    rw [IsList_cons_iff] at h
    obtain ⟨hp, ny, hny, ht⟩ := h
    cases t with
    | nil =>
      simp at hlast
      subst hlast
      rw [hx] at hny
      have hnn : nd = ny := Option.some.inj hny
      subst hnn
      simp only [List.nil_append, List.cons_append]
      rw [IsList_cons_iff]
      refine ⟨hp, { nd with next := some a }, by simp [store], ?_⟩
      rw [IsList_cons_iff]
      refine ⟨rfl, new, by simp [store, hax], ?_⟩
      simp [IsList, hnew]
    | cons z t2 =>
      rw [List.getLast?_cons_cons] at hlast
      have hmem : x ∈ z :: t2 := List.mem_of_getLast?_eq_some hlast
      have hyx : y ≠ x := by
        intro hc
        subst hc
        exact IsList_head_not_mem heap p y (z :: t2) h0 hmem
      have hya : y ≠ a := by
        intro hc
        rw [hc, ha] at hny
        exact absurd hny (by simp)
      have hrec := ih ny.next ht hlast
      simp only [List.cons_append] at hrec ⊢
      rw [IsList_cons_iff]
      exact ⟨hp, ny, by simp [store, hyx, hya, hny], hrec⟩

theorem pairs_append_node (heap : Nat → Option chan_X11_list) (a x : Nat)
    (nd new : chan_X11_list) (hx : heap x = some nd) (ha : heap a = none)
    (l : List Nat) (hlive : ∀ b ∈ l, ∃ n, heap b = some n) :
    pairs (store (store heap a new) x { nd with next := some a }) (l ++ [a]) =
      pairs heap l ++ [(new.chan, new.sock)] := by
  have hax : a ≠ x := by
    intro hc
    rw [hc, hx] at ha
    exact absurd ha (by simp)
  unfold pairs
  rw [List.filterMap_append]
  congr 1
  · apply List.filterMap_congr
    intro b hb
    obtain ⟨n, hn⟩ := hlive b hb
    have hba : b ≠ a := by
      intro hc
      rw [hc, ha] at hn
      exact absurd hn (by simp)
    by_cases hbx : b = x
    · subst hbx
      rw [hx] at hn
      simp [pair_at, store, hx]
    · simp [pair_at, store, hbx, hba]
  · simp [pair_at, store, hax]

/-- On a well-formed registry, with a fresh address and enough steps, the
insertion appends the node at the tail of the list. -/
theorem x11_callback_insert_spec (fuel : Nat) (st : Registry) (channel : LIBSSH2_CHANNEL)
    (sock : libssh2_socket_t) (l : List Nat) (a : Nat)
    (hl : IsList st.heap st.gp_x11_chan l) (ha : st.heap a = none)
    (hfuel : l.length ≤ fuel) :
    ∃ st2, x11_callback_insert fuel (some a) st channel sock = .ok st2 ∧
      IsList st2.heap st2.gp_x11_chan (l ++ [a]) ∧
      pairs st2.heap (l ++ [a]) = pairs st.heap l ++ [(channel, sock)] := by
  unfold x11_callback_insert
  cases hgp : st.gp_x11_chan with
  | none =>
    rw [hgp] at hl
    have hnil : l = [] := IsList_functional st.heap l [] none hl (by simp [IsList])
    subst hnil
    refine ⟨_, rfl, ?_, ?_⟩
    · simp [IsList, store]
    · simp [pairs, pair_at, store]
  | some hd =>
    rw [hgp] at hl
    obtain ⟨x, nd, hlast, hrun, hx, -⟩ := last_node_spec st.heap l fuel hd hl hfuel
    have hax : a ≠ x := by
      intro hc
      rw [hc, hx] at ha
      exact absurd ha (by simp)
    have hxa : x ≠ a := fun hc => hax hc.symm
    refine ⟨_, by simp [hrun, store, hxa, hx]; rfl, ?_, ?_⟩
    · exact IsList_append_node st.heap a x nd
        { chan := channel, sock := sock, next := none } rfl hx ha l (some hd) hl hlast
    · exact pairs_append_node st.heap a x nd
        { chan := channel, sock := sock, next := none } hx ha l
        (fun b hb => IsList_live st.heap l (some hd) b hl hb)


/-! ## Lemmas on the loop over the X clients and on the event loop -/

theorem pty_sizes_append (a b : List Event) :
    pty_sizes (a ++ b) = pty_sizes a ++ pty_sizes b := by
  induction a with
  | nil => rfl
  | cons e t ih => cases e <;> simp [pty_sizes, ih]

theorem x11_send_receive_pty_sizes (env : RelayEnv) (channel : LIBSSH2_CHANNEL)
    (sock : libssh2_socket_t) : pty_sizes (x11_send_receive env channel sock).2 = [] := by
  unfold x11_send_receive
  repeat' split
  all_goals simp [pty_sizes]

theorem x11_loop_pty_sizes (relay : LIBSSH2_CHANNEL → libssh2_socket_t → RelayEnv)
    (rfuel fuel : Nat) :
    ∀ (st : Registry) (p : Option Nat), pty_sizes (x11_loop relay rfuel fuel st p).1 = [] := by
  induction fuel with
  | zero =>
    intro st p
    cases p <;> simp [x11_loop, pty_sizes]
  | succ n ih =>
    intro st p
    cases p with
    | none => simp [x11_loop, pty_sizes]
    | some a =>
      simp only [x11_loop]
      cases hn : st.heap a with
      | none => simp [pty_sizes]
      | some nd =>
        simp only []
        split
        · cases hr : remove_node rfuel st a with
          | error f =>
            simp [pty_sizes_append, x11_send_receive_pty_sizes, pty_sizes]
          | ok st1 =>
            simp [pty_sizes_append, x11_send_receive_pty_sizes, pty_sizes, ih]
        · simp [pty_sizes_append, x11_send_receive_pty_sizes, ih]

/-- A visit of the loop to a live node whose step does not return -1 leaves
the registry as it is and goes on with the next node. -/
theorem x11_loop_visit (relay : LIBSSH2_CHANNEL → libssh2_socket_t → RelayEnv)
    (rfuel n : Nat) (st : Registry) (a : Nat) (nd : chan_X11_list)
    (ha : st.heap a = some nd)
    (hrc : (x11_send_receive (relay nd.chan nd.sock) nd.chan nd.sock).1 ≠ -1) :
    x11_loop relay rfuel (n + 1) st (some a) =
      ((x11_send_receive (relay nd.chan nd.sock) nd.chan nd.sock).2 ++
          (x11_loop relay rfuel n st nd.next).1,
        (x11_loop relay rfuel n st nd.next).2) := by
  simp only [x11_loop, ha]
  rw [if_neg hrc]

/-- On a well-formed registry a pass in which no step returns -1 comes to
its end and leaves the registry unchanged. -/
theorem x11_loop_keeps (relay : LIBSSH2_CHANNEL → libssh2_socket_t → RelayEnv)
    (rfuel : Nat) (st : Registry)
    (hrc : ∀ c k, (x11_send_receive (relay c k) c k).1 ≠ -1) :
    ∀ (l : List Nat) (fuel : Nat) (p : Option Nat), IsList st.heap p l → l.length ≤ fuel →
      (x11_loop relay rfuel fuel st p).2 = .ok st := by
  intro l
  induction l with
  | nil =>
    intro fuel p h _
    simp only [IsList] at h
    subst h
    cases fuel <;> rfl
  | cons a t ih =>
    intro fuel p h hfuel
    rw [IsList_cons_iff] at h
    obtain ⟨hp, nd, hnd, ht⟩ := h
    subst hp
    cases fuel with
    | zero => simp at hfuel
    | succ n =>
      rw [x11_loop_visit relay rfuel n st a nd hnd (hrc nd.chan nd.sock)]
      exact ih n nd.next ht (by simp at hfuel; omega)

theorem resize_check_eq (channel : LIBSSH2_CHANNEL) (w last : winsize) :
    resize_check channel w last =
      if w ≠ last then (w, [.request_pty_size channel w.ws_col w.ws_row]) else (last, []) := by
  unfold resize_check
  have h : (w.ws_row ≠ last.ws_row ∨ w.ws_col ≠ last.ws_col) ↔ w ≠ last := by
    cases w; cases last; simp; tauto
  by_cases hw : w ≠ last
  · rw [if_pos (h.mpr hw), if_pos hw]
  · rw [if_neg (fun hc => hw (h.mp hc)), if_neg hw]

theorem main_tick_pty_sizes (sizeof_buf fuel : Nat) (channel : LIBSSH2_CHANNEL) (e : TickEnv)
    (s : MainState) :
    pty_sizes (main_tick sizeof_buf fuel channel e s).1 =
      pty_sizes (resize_check channel e.w_size s.w_size_bck).2 := by
  unfold main_tick
  cases hb : e.buf with
  | false => simp
  | true =>
    cases hf : e.fds with
    | false => simp
    | true =>
      have hx := x11_loop_pty_sizes e.relay fuel fuel s.reg s.reg.gp_x11_chan
      simp only []
      cases hl : (x11_loop e.relay fuel fuel s.reg s.reg.gp_x11_chan).2 with
      | error f =>
        repeat' split
        all_goals simp [pty_sizes_append, hx, pty_sizes]
      | ok reg1 =>
        repeat' split
        all_goals simp [pty_sizes_append, hx, pty_sizes]

theorem main_tick_ok (sizeof_buf fuel : Nat) (channel : LIBSSH2_CHANNEL) (e : TickEnv)
    (s s1 : MainState) (status : LoopStatus)
    (h : (main_tick sizeof_buf fuel channel e s).2 = .ok (s1, status)) :
    s1.w_size_bck = (resize_check channel e.w_size s.w_size_bck).1 ∧
      (status = .STOPPED ↔ leaves_loop e = true) := by
  unfold main_tick at h
  cases hb : e.buf with
  | false =>
    simp [hb] at h
    obtain ⟨h1, h2⟩ := h
    subst h1 h2
    simp [leaves_loop, hb]
  | true =>
    cases hf : e.fds with
    | false =>
      simp [hb, hf] at h
      obtain ⟨h1, h2⟩ := h
      subst h1 h2
      simp [leaves_loop, hf]
    | true =>
      simp only [hb, hf] at h
      cases hl : (x11_loop e.relay fuel fuel s.reg s.reg.gp_x11_chan).2 with
      | error f => simp [hl] at h
      | ok reg1 =>
        simp [hl] at h
        obtain ⟨h1, h2⟩ := h
        subst h1 h2
        refine ⟨rfl, ?_⟩
        by_cases he : e.eof = 1 <;> simp [leaves_loop, hb, hf, he]

theorem main_tick_returns (sizeof_buf fuel : Nat) (channel : LIBSSH2_CHANNEL) (e : TickEnv)
    (s : MainState) (l : List Nat) (hl : IsList s.reg.heap s.reg.gp_x11_chan l)
    (hfuel : l.length ≤ fuel)
    (hrc : ∀ c k, (x11_send_receive (e.relay c k) c k).1 ≠ -1) :
    ∃ s1 status, (main_tick sizeof_buf fuel channel e s).2 = .ok (s1, status) ∧
      s1.reg = s.reg := by
  have hk := x11_loop_keeps e.relay fuel s.reg hrc l fuel s.reg.gp_x11_chan hl hfuel
  unfold main_tick
  cases hb : e.buf with
  | false =>
    exact ⟨{ s with w_size_bck := (resize_check channel e.w_size s.w_size_bck).1 }, .STOPPED,
      by simp, rfl⟩
  | true =>
    cases hf : e.fds with
    | false =>
      exact ⟨{ s with w_size_bck := (resize_check channel e.w_size s.w_size_bck).1 },
        .STOPPED, by simp, rfl⟩
    | true =>
      exact ⟨{ w_size_bck := (resize_check channel e.w_size s.w_size_bck).1, reg := s.reg },
        if e.eof = 1 then .STOPPED else .RUNNING, by simp [hk], rfl⟩

/-- The resize notifications of a run of the loop are the changes of
geometry over the iterations started, counted from the stored geometry. -/
theorem main_loop_resize (sizeof_buf fuel : Nat) (channel : LIBSSH2_CHANNEL) :
    ∀ (envs : List TickEnv) (s : MainState),
      pty_sizes (main_loop sizeof_buf fuel channel envs s).1 =
        notifications channel (changes s.w_size_bck
          ((iterations_run sizeof_buf fuel channel envs s).map fun e => e.w_size)) := by
  intro envs
  induction envs with
  | nil =>
    intro s
    simp [main_loop, iterations_run, changes, notifications, pty_sizes]
  | cons e es ih =>
    intro s
    have hpty := main_tick_pty_sizes sizeof_buf fuel channel e s
    rw [resize_check_eq] at hpty
    simp only [main_loop, iterations_run]
    cases ht : (main_tick sizeof_buf fuel channel e s).2 with
    | error f =>
      simp only [hpty]
      by_cases hw : e.w_size ≠ s.w_size_bck <;>
        simp [changes, hw, pty_sizes, notifications]
    | ok r =>
      obtain ⟨s1, st1⟩ := r
      obtain ⟨hbck, -⟩ := main_tick_ok sizeof_buf fuel channel e s s1 st1 ht
      rw [resize_check_eq] at hbck
      cases st1 with
      | STOPPED =>
        simp only [hpty]
        by_cases hw : e.w_size ≠ s.w_size_bck <;>
          simp [changes, hw, pty_sizes, notifications]
      | RUNNING =>
        simp only [pty_sizes_append, hpty, ih s1, hbck]
        by_cases hw : e.w_size ≠ s.w_size_bck
        · simp [changes, hw, pty_sizes, notifications]
        · simp [changes, hw, pty_sizes, notifications]

/-- When a run of the loop produces a result, the iterations started are
those up to the first one that leaves the loop. -/
theorem main_loop_iterations (sizeof_buf fuel : Nat) (channel : LIBSSH2_CHANNEL) :
    ∀ (envs : List TickEnv) (s : MainState) (r : MainState × LoopStatus),
      (main_loop sizeof_buf fuel channel envs s).2 = .ok r →
      iterations_run sizeof_buf fuel channel envs s = ticks_run envs := by
  intro envs
  induction envs with
  | nil => intro s r _; rfl
  | cons e es ih =>
    intro s r h
    simp only [main_loop] at h
    simp only [iterations_run, ticks_run]
    cases ht : (main_tick sizeof_buf fuel channel e s).2 with
    | error f => simp [ht] at h
    | ok r1 =>
      obtain ⟨s1, st1⟩ := r1
      obtain ⟨-, hstop⟩ := main_tick_ok sizeof_buf fuel channel e s s1 st1 ht
      cases st1 with
      | STOPPED =>
        have hl : leaves_loop e = true := hstop.mp rfl
        simp [hl]
      | RUNNING =>
        have hl : leaves_loop e = false := by
          cases hq : leaves_loop e with
          | false => rfl
          | true => exact absurd (hstop.mpr hq) (by decide)
        simp only [ht] at h
        simp [hl, ih s1 r h]

/-- On a well-formed registry a run of the loop in which no step of a pair
returns -1 produces a result and leaves the registry unchanged. -/
theorem main_loop_returns (sizeof_buf fuel : Nat) (channel : LIBSSH2_CHANNEL)
    (reg : Registry) (l : List Nat) (hl : IsList reg.heap reg.gp_x11_chan l)
    (hfuel : l.length ≤ fuel) :
    ∀ (envs : List TickEnv) (s : MainState), s.reg = reg →
      (∀ e ∈ envs, ∀ c k, (x11_send_receive (e.relay c k) c k).1 ≠ -1) →
      ∃ r, (main_loop sizeof_buf fuel channel envs s).2 = .ok r ∧ r.1.reg = reg := by
  intro envs
  induction envs with
  | nil => intro s hs _; exact ⟨(s, .RUNNING), rfl, hs⟩
  | cons e es ih =>
    intro s hs hrc
    have hl2 : IsList s.reg.heap s.reg.gp_x11_chan l := by rw [hs]; exact hl
    obtain ⟨s1, st1, ht, hreg⟩ :=
      main_tick_returns sizeof_buf fuel channel e s l hl2 hfuel
        (hrc e (List.mem_cons_self e es))
    simp only [main_loop, ht]
    cases st1 with
    | STOPPED => exact ⟨(s1, .STOPPED), rfl, by rw [hreg, hs]⟩
    | RUNNING =>
      exact ih s1 (by rw [hreg, hs]) (fun e2 he2 => hrc e2 (List.mem_cons_of_mem e he2))

/-! ## Claims on the event loop of `main` -/

/-- C5 fails as stated: for the geometries (80,24), (80,24), (100,24) seen
on three successive iterations, `main` sends two resize notifications, one
in the first iteration for (80,24) and one for the change to (100,24). The
stored geometry `w_size_bck` starts zeroed, so the first geometry seen
counts as a change. -/
theorem main_resize_sequence_sends_two :
    outcome (main 8 0 7 [quiet ⟨24, 80⟩, quiet ⟨24, 80⟩, quiet ⟨24, 100⟩] no_clients) =
      some (.RUNNING, [.request_pty_size 7 80 24, .request_pty_size 7 100 24]) := by
  decide

/-- The same three geometries with three forwarded connections open and
idle: again two notifications, and the registry is visited in every
iteration. -/
theorem main_resize_sequence_with_clients :
    outcome (main 8 3 7 [quiet ⟨24, 80⟩, quiet ⟨24, 80⟩, quiet ⟨24, 100⟩] reg3) =
      some (.RUNNING, [.request_pty_size 7 80 24, .request_pty_size 7 100 24]) := by
  decide

/-- C5 as amended: in every run of `main`, whether it comes to a result or
stays in the loop over the X clients, the resize notifications sent on the
shell channel are exactly, in order, the geometries of the iterations
started that differ from the stored geometry `w_size_bck` (the geometry of
the iteration before, (0,0) before the first iteration): one notification
per change, with columns and rows of the new geometry. When the run comes
to a result, the iterations started are those up to the first one that
leaves the loop; and the run does come to a result when the registry is
well formed, the step budget covers it and no step of a pair returns -1. -/
theorem main_resize_debounced (sizeof_buf fuel : Nat) (channel : LIBSSH2_CHANNEL)
    (envs : List TickEnv) (reg : Registry) :
    pty_sizes (main sizeof_buf fuel channel envs reg).1 =
        notifications channel (changes ⟨0, 0⟩
          ((iterations_run sizeof_buf fuel channel envs
            { w_size_bck := ⟨0, 0⟩, reg := reg }).map fun e => e.w_size)) ∧
      ((∃ r, (main sizeof_buf fuel channel envs reg).2 = .ok r) →
        iterations_run sizeof_buf fuel channel envs { w_size_bck := ⟨0, 0⟩, reg := reg } =
          ticks_run envs) ∧
      (∀ l : List Nat, IsList reg.heap reg.gp_x11_chan l → l.length ≤ fuel →
        (∀ e ∈ envs, ∀ c k, (x11_send_receive (e.relay c k) c k).1 ≠ -1) →
        ∃ r, (main sizeof_buf fuel channel envs reg).2 = .ok r ∧ r.1.reg = reg ∧
          pty_sizes (main sizeof_buf fuel channel envs reg).1 =
            notifications channel (changes ⟨0, 0⟩ ((ticks_run envs).map fun e => e.w_size))) := by
  have hres := main_loop_resize sizeof_buf fuel channel envs { w_size_bck := ⟨0, 0⟩, reg := reg }
  have hmain : pty_sizes (main sizeof_buf fuel channel envs reg).1 =
      pty_sizes (main_loop sizeof_buf fuel channel envs
        { w_size_bck := ⟨0, 0⟩, reg := reg }).1 := by
    cases hm : (main_loop sizeof_buf fuel channel envs
        { w_size_bck := ⟨0, 0⟩, reg := reg }).2 with
    | error f => simp [main, hm]
    | ok r =>
      obtain ⟨s1, st1⟩ := r
      cases st1 with
      | RUNNING => simp [main, hm]
      | STOPPED => simp [main, hm, pty_sizes_append, pty_sizes]
  have hok : ∀ r, (main sizeof_buf fuel channel envs reg).2 = .ok r →
      (main_loop sizeof_buf fuel channel envs { w_size_bck := ⟨0, 0⟩, reg := reg }).2 =
        .ok r := by
    intro r h
    cases hm : (main_loop sizeof_buf fuel channel envs
        { w_size_bck := ⟨0, 0⟩, reg := reg }).2 with
    | error f => simp [main, hm] at h
    | ok r1 =>
      obtain ⟨s1, st1⟩ := r1
      cases st1 <;> simp [main, hm] at h <;> rw [← h]
  have hiter : (∃ r, (main sizeof_buf fuel channel envs reg).2 = .ok r) →
      iterations_run sizeof_buf fuel channel envs { w_size_bck := ⟨0, 0⟩, reg := reg } =
        ticks_run envs := by
    rintro ⟨r, h⟩
    exact main_loop_iterations sizeof_buf fuel channel envs _ r (hok r h)
  refine ⟨hmain.trans hres, hiter, ?_⟩
  intro l hl hfuel hrc
  obtain ⟨r, hr, hreg⟩ :=
    main_loop_returns sizeof_buf fuel channel reg l hl hfuel envs
      { w_size_bck := ⟨0, 0⟩, reg := reg } rfl hrc
  have hm : (main sizeof_buf fuel channel envs reg).2 = .ok r := by
    obtain ⟨s1, st1⟩ := r
    cases st1 <;> simp [main, hr]
  refine ⟨r, hm, hreg, ?_⟩
  rw [hmain, hres, hiter ⟨r, hm⟩]

theorem main_resize_debounced_witness :
    (IsList reg3.heap reg3.gp_x11_chan [10, 20, 30] ∧ [10, 20, 30].length ≤ 3 ∧
        ∀ e ∈ [quiet ⟨24, 80⟩, quiet ⟨24, 80⟩, quiet ⟨24, 100⟩],
          ∀ c k, (x11_send_receive (e.relay c k) c k).1 ≠ -1) ∧
      ∃ r, (main 8 3 7 [quiet ⟨24, 80⟩, quiet ⟨24, 80⟩, quiet ⟨24, 100⟩] reg3).2 = .ok r ∧
        r.1.reg = reg3 ∧
        pty_sizes (main 8 3 7 [quiet ⟨24, 80⟩, quiet ⟨24, 80⟩, quiet ⟨24, 100⟩] reg3).1 =
          notifications 7 (changes ⟨0, 0⟩
            ((ticks_run [quiet ⟨24, 80⟩, quiet ⟨24, 80⟩, quiet ⟨24, 100⟩]).map
              fun e => e.w_size)) :=
  have h : ∀ e ∈ [quiet ⟨24, 80⟩, quiet ⟨24, 80⟩, quiet ⟨24, 100⟩],
      ∀ c k, (x11_send_receive (e.relay c k) c k).1 ≠ -1 := by
    intro e he c k
    simp only [List.mem_cons, List.mem_singleton, List.not_mem_nil, or_false] at he
    rcases he with he | he | he <;> subst he <;> simp [quiet, idle, x11_send_receive]
  ⟨⟨by decide, by decide, h⟩,
    (main_resize_debounced 8 3 7 [quiet ⟨24, 80⟩, quiet ⟨24, 80⟩, quiet ⟨24, 100⟩] reg3).2.2
      [10, 20, 30] (by decide) (by decide) h⟩

/-- C9 fails as stated: an iteration of the event loop in which the
transfer buffer cannot be allocated ends the loop. The iteration after it,
in which the shell channel has a byte to deliver, is not run. -/
theorem main_loop_no_buffer_stops :
    outcome (main_loop 8 0 7 [no_buffer, shell_output [97] 0]
        { w_size_bck := ⟨0, 0⟩, reg := no_clients }) = some (.STOPPED, []) ∧
      outcome (main_loop 8 0 7 [shell_output [97] 0]
        { w_size_bck := ⟨0, 0⟩, reg := no_clients }) =
          some (.RUNNING, [.channel_read 7 8, .stdout_write [97]]) := by
  decide

/-- C9 as amended: when the transfer buffer or the poll descriptor cannot be
allocated, `x11_send_receive` performs no transfer and returns 0 (not
terminated); the loop over the X clients then goes on to the next pair
without closing the socket or calling `remove_node` for this pair, and a
pass over a well-formed registry in which this happens for every pair
leaves the registry unchanged. When the allocation fails in the event loop
of `main`, the loop is left through `break`: after the geometry check of
that iteration nothing more is done, no later iteration is run, and the
loop is STOPPED. -/
theorem alloc_failure_effect (sizeof_buf fuel : Nat) (channel : LIBSSH2_CHANNEL)
    (e : TickEnv) (es : List TickEnv) (s : MainState) (env : RelayEnv)
    (ch : LIBSSH2_CHANNEL) (sock : libssh2_socket_t)
    (he : e.buf = false ∨ e.fds = false) (hr : env.buf = false ∨ env.fds = false) :
    x11_send_receive env ch sock = (0, []) ∧
      (∀ (relay : LIBSSH2_CHANNEL → libssh2_socket_t → RelayEnv) (rfuel n : Nat)
          (st : Registry) (a : Nat) (nd : chan_X11_list),
        st.heap a = some nd → relay nd.chan nd.sock = env →
        x11_loop relay rfuel (n + 1) st (some a) = x11_loop relay rfuel n st nd.next) ∧
      (∀ (relay : LIBSSH2_CHANNEL → libssh2_socket_t → RelayEnv) (rfuel n : Nat)
          (st : Registry) (l : List Nat),
        IsList st.heap st.gp_x11_chan l → l.length ≤ n → (∀ c k, relay c k = env) →
        x11_loop relay rfuel n st st.gp_x11_chan = ([], .ok st)) ∧
      main_loop sizeof_buf fuel channel (e :: es) s =
        ((resize_check channel e.w_size s.w_size_bck).2,
          .ok ({ s with w_size_bck := (resize_check channel e.w_size s.w_size_bck).1 },
            .STOPPED)) := by
  have hstep : ∀ c k, x11_send_receive env c k = (0, []) := by
    intro c k
    unfold x11_send_receive
    rcases hr with hr | hr
    · simp [hr]
    · cases hb : env.buf <;> simp [hr]
  have hvisit : ∀ (relay : LIBSSH2_CHANNEL → libssh2_socket_t → RelayEnv) (rfuel n : Nat)
      (st : Registry) (a : Nat) (nd : chan_X11_list),
      st.heap a = some nd → relay nd.chan nd.sock = env →
      x11_loop relay rfuel (n + 1) st (some a) = x11_loop relay rfuel n st nd.next := by
    intro relay rfuel n st a nd ha hrel
    have h0 : (x11_send_receive (relay nd.chan nd.sock) nd.chan nd.sock).1 ≠ -1 := by
      rw [hrel, hstep]; decide
    rw [x11_loop_visit relay rfuel n st a nd ha h0, hrel, hstep]
    rfl
  refine ⟨hstep ch sock, hvisit, ?_, ?_⟩
  · intro relay rfuel n st l hl hn hall
    have key : ∀ (l : List Nat) (n : Nat) (p : Option Nat), IsList st.heap p l →
        l.length ≤ n → x11_loop relay rfuel n st p = ([], .ok st) := by
      intro l
      induction l with
      | nil =>
        intro n p h _
        simp only [IsList] at h
        subst h
        cases n <;> rfl
      | cons a t ih =>
        intro n p h hlen
        rw [IsList_cons_iff] at h
        obtain ⟨hp, nd, hnd, ht⟩ := h
        subst hp
        cases n with
        | zero => simp at hlen
        | succ m =>
          rw [hvisit relay rfuel m st a nd hnd (hall nd.chan nd.sock)]
          exact ih m nd.next ht (by simp at hlen; omega)
    exact key l n st.gp_x11_chan hl hn
  · simp only [main_loop, main_tick]
    rcases he with he | he
    · simp [he]
    · cases hb : e.buf <;> simp [he]

theorem alloc_failure_effect_witness :
    ((no_buffer.buf = false ∨ no_buffer.fds = false) ∧
        (no_fds.buf = false ∨ no_fds.fds = false)) ∧
      x11_send_receive no_fds 1 5 = (0, []) ∧
      x11_loop (fun c _ => if c = 2 then no_fds else idle) 0 3 reg3 (some 20) =
        x11_loop (fun c _ => if c = 2 then no_fds else idle) 0 2 reg3 (some 30) ∧
      x11_loop (fun _ _ => no_fds) 0 3 reg3 reg3.gp_x11_chan = ([], .ok reg3) ∧
      main_loop 8 0 7 [no_buffer, shell_output [97] 0]
          { w_size_bck := ⟨0, 0⟩, reg := no_clients } =
        ((resize_check 7 no_buffer.w_size ⟨0, 0⟩).2,
          .ok ({ ({ w_size_bck := ⟨0, 0⟩, reg := no_clients } : MainState) with
                w_size_bck := (resize_check 7 no_buffer.w_size ⟨0, 0⟩).1 }, .STOPPED)) :=
  have h := alloc_failure_effect 8 0 7 no_buffer [shell_output [97] 0]
    { w_size_bck := ⟨0, 0⟩, reg := no_clients } no_fds 1 5 (by decide) (by decide)
  ⟨⟨by decide, by decide⟩, h.1,
    h.2.1 (fun c _ => if c = 2 then no_fds else idle) 0 2 reg3 20
      { chan := 2, sock := 6, next := some 30 } rfl rfl,
    h.2.2.1 (fun _ _ => no_fds) 0 3 reg3 [10, 20, 30] (by decide) (by decide)
      (fun _ _ => rfl),
    h.2.2.2⟩

/-- C7, evaluated on the code: the shell channel delivers the three bytes
97, 0, 98 and then reports end-of-stream; `main` writes only the byte 97 to
the local output before it stops. The buffer is printed with the format
"%s", which ends at the first zero byte, and the number of bytes read is not
used. -/
theorem main_output_cut_at_zero_byte :
    outcome (main 8 0 7 [shell_output [97, 0, 98] 1] no_clients) =
      some (.STOPPED,
        [.channel_read 7 8, .stdout_write [97], .channel_free 7, .normal_mode]) := by
  decide

/-- For the bytes of "hello" and a newline followed by end-of-stream, the
local output receives exactly these bytes and the loop stops. -/
theorem main_output_hello :
    outcome (main 8 0 7 [shell_output [104, 101, 108, 108, 111, 10] 1] no_clients) =
      some (.STOPPED,
        [.channel_read 7 8, .stdout_write [104, 101, 108, 108, 111, 10],
         .channel_free 7, .normal_mode]) := by
  decide

/-- C8, evaluated on the code: in an iteration in which the shell channel
delivered "abcdefgh" and `read` on stdin returned the one byte "x", the
data written to the shell channel is the eight bytes "xbcdefgh": the length
passed to `libssh2_channel_write` is `sizeof(buf)`, the size of a pointer,
and the bytes after the first are those read from the shell channel
earlier in the iteration. -/
theorem main_stdin_byte_sends_whole_buffer :
    outcome (main_loop 8 0 7 [typed_byte] { w_size_bck := ⟨0, 0⟩, reg := no_clients }) =
      some (.RUNNING,
        [.channel_read 7 8, .stdout_write [97, 98, 99, 100, 101, 102, 103, 104],
         .stdin_read 1, .channel_write 7 [120, 98, 99, 100, 101, 102, 103, 104]]) := by
  decide

/-! ## Claims on `x11_callback` -/

theorem local_display_iff (display : List Char) :
    local_display display = true ↔ local_form display := by
  unfold local_display strncmp_eq local_form
  rw [Bool.or_eq_true]
  have h5 : (List.take 5 display == List.take 5 "unix:".toList) = true ↔
      ['u', 'n', 'i', 'x', ':'] <+: display := by
    rw [List.prefix_iff_eq_take]
    simp
    exact eq_comm
  have hh : (display.head? == some ':') = true ↔ display.head? = some ':' := by simp
  rw [h5, hh]

theorem strrchr_of_mem (c : Char) :
    ∀ s : List Char, c ∈ s → ∃ r, strrchr s c = some r := by
  intro s
  induction s with
  | nil => intro h; simp at h
  | cons x t ih =>
    intro h
    simp only [strrchr]
    cases ht : strrchr t c with
    | some r => exact ⟨r, rfl⟩
    | none =>
      rcases List.mem_cons.mp h with hx | hm
      · exact ⟨x :: t, by simp [hx]⟩
      · obtain ⟨r, hr⟩ := ih hm
        rw [ht] at hr
        exact absurd hr (by simp)

theorem strrchr_of_local_form (display : List Char) (h : local_form display) :
    ∃ ptr, strrchr display ':' = some ptr := by
  apply strrchr_of_mem
  rcases h with h1 | h2
  · exact h1.subset (by simp)
  · cases display with
    | nil => simp at h2
    | cons x t =>
      have : x = ':' := by simpa using h2
      simp [this]

/-- The display number is stored in an `int`: for DISPLAY=:99999999999 the
result of `atoi` is 99999999999 modulo `2 ^ 32`. -/
theorem atoi_wraps :
    atoi ['9', '9', '9', '9', '9', '9', '9', '9', '9', '9', '9'] = 1215752191 ∧
      atoi [' ', '-', '1', '2', 'a'] = -12 ∧ atoi ['0', '.', '0'] = 0 := by
  decide

/-- A call with a DISPLAY of local form in which `temp_buff`, `socket` and
`connect` succeed does what the insertion does, and makes no other call. -/
theorem x11_callback_connected (fuel : Nat) (env : CallbackEnv) (st : Registry)
    (channel : LIBSSH2_CHANNEL) (d ptr : List Char) (hd : env.display = some d)
    (hlocal : local_form d) (htemp : env.temp_buff = true)
    (hsocket : env.socket ≠ LIBSSH2_INVALID_SOCKET) (hp : strrchr d ':' = some ptr)
    (hconn : env.connect env.socket (atoi ptr.tail) ≠ -1) :
    x11_callback fuel env st channel =
      match x11_callback_insert fuel env.node st channel env.socket with
      | .error f => .error f
      | .ok st1 => .ok (st1, []) := by
  have h1 : local_display d = true := (local_display_iff d).mpr hlocal
  unfold x11_callback
  simp [hd, h1, hp, htemp, hsocket, hconn]

/-- The calls of `x11_callback` that register nothing: DISPLAY unset or not
of local form, no socket (nothing is done); no `temp_buff` (the `calloc`
message is printed); `connect` fails (the socket is shut down and closed).
In all of them the registry is returned as it was. -/
theorem x11_callback_drops (fuel : Nat) (env : CallbackEnv) (st : Registry)
    (channel : LIBSSH2_CHANNEL) :
    (env.display = none → x11_callback fuel env st channel = .ok (st, [])) ∧
      (∀ d, env.display = some d → ¬ local_form d →
        x11_callback fuel env st channel = .ok (st, [])) ∧
      (∀ d, env.display = some d → local_form d → env.temp_buff = false →
        x11_callback fuel env st channel =
          .ok (st, [.stderr_write "failed to calloc().\n"])) ∧
      (∀ d, env.display = some d → local_form d → env.temp_buff = true →
        env.socket = LIBSSH2_INVALID_SOCKET →
        x11_callback fuel env st channel = .ok (st, [])) ∧
      (∀ d ptr, env.display = some d → local_form d → env.temp_buff = true →
        env.socket ≠ LIBSSH2_INVALID_SOCKET → strrchr d ':' = some ptr →
        env.connect env.socket (atoi ptr.tail) = -1 →
        x11_callback fuel env st channel =
          .ok (st, [.sock_shutdown env.socket, .sock_close env.socket])) := by
  refine ⟨?_, ?_, ?_, ?_, ?_⟩
  · intro hd
    simp [x11_callback, hd]
  · intro d hd hl
    have h1 : local_display d = false := by
      cases hq : local_display d with
      | false => rfl
      | true => exact absurd ((local_display_iff d).mp hq) hl
    simp [x11_callback, hd, h1]
  · intro d hd hl ht
    obtain ⟨ptr, hp⟩ := strrchr_of_local_form d hl
    simp [x11_callback, hd, (local_display_iff d).mpr hl, hp, ht]
  · intro d hd hl ht hs
    obtain ⟨ptr, hp⟩ := strrchr_of_local_form d hl
    simp [x11_callback, hd, (local_display_iff d).mpr hl, hp, ht, hs]
  · intro d ptr hd hl ht hs hp hc
    simp [x11_callback, hd, (local_display_iff d).mpr hl, hp, ht, hs, hc]

/-- C2, evaluated on the code: the first forwarded connection arrives with
DISPLAY=:0, `socket` and `connect` succeed, and the `calloc` of the list
node returns NULL. `x11_callback` stores through the NULL pointer
(`gp_x11_chan->sock = sock`): for no step budget does it return, and no
pair is registered. With three pairs registered and the `malloc` of the
node returning NULL it does not return either. -/
theorem x11_callback_null_node :
    (∀ fuel : Nat, x11_callback fuel null_node_env no_clients 4 = .error .invalid_pointer) ∧
      (∀ fuel : Nat, ∀ r, x11_callback fuel null_node_env reg3 4 ≠ .ok r) := by
  constructor
  · intro fuel
    rfl
  · intro fuel r h
    have hc := x11_callback_connected fuel null_node_env reg3 4 [':', '0'] [':', '0'] rfl
      (Or.inr rfl) rfl (by decide) rfl (by decide)
    rw [hc] at h
    simp only [x11_callback_insert, reg3, null_node_env] at h
    cases hl : last_node heap3 fuel 10 with
    | error f => simp [hl] at h
    | ok x => simp [hl] at h

/-- C6 fails as stated: `x11_callback` is called for channel 1 while the
registry already holds the pair `(1,5)`; the call does not fail, and the
registry then holds `(1,5)` and `(1,6)`, two entries with the same channel
handle. -/
theorem x11_callback_duplicate_channel :
    registry_pairs reg1.heap 2 reg1.gp_x11_chan = some [(1, 5)] ∧
      registry_after 2 (x11_callback 1 (local_env 6 20) reg1 1) = some [(1, 5), (1, 6)] := by
  decide

/-- C6 as amended: `x11_callback` makes no test for duplicates and has no
failure result. On a well-formed registry, every call with a DISPLAY of
local form in which `temp_buff`, `socket`, `connect` and the allocation of
the list node succeed appends the pair `{channel, socket}` at the tail,
whether or not its channel or socket is registered already. When no two
entries of the registry share a channel or a socket and the channel and the
socket of the call are not in the registry, then after the call still no
two entries share a channel or a socket. -/
theorem x11_callback_keeps_unique (fuel : Nat) (env : CallbackEnv) (st : Registry)
    (channel : LIBSSH2_CHANNEL) (l : List Nat) (a : Nat) (d : List Char)
    (hl : IsList st.heap st.gp_x11_chan l) (hnode : env.node = some a)
    (hfresh : st.heap a = none) (hfuel : l.length ≤ fuel)
    (hd : env.display = some d) (hlocal : local_form d) (htemp : env.temp_buff = true)
    (hsocket : env.socket ≠ LIBSSH2_INVALID_SOCKET)
    (hconn : ∀ ptr, strrchr d ':' = some ptr →
      env.connect env.socket (atoi ptr.tail) ≠ -1) :
    ∃ st2, x11_callback fuel env st channel = .ok (st2, []) ∧
      IsList st2.heap st2.gp_x11_chan (l ++ [a]) ∧
      pairs st2.heap (l ++ [a]) = pairs st.heap l ++ [(channel, env.socket)] ∧
      (((pairs st.heap l).map Prod.fst).Nodup → ((pairs st.heap l).map Prod.snd).Nodup →
        channel ∉ (pairs st.heap l).map Prod.fst →
        env.socket ∉ (pairs st.heap l).map Prod.snd →
        ((pairs st2.heap (l ++ [a])).map Prod.fst).Nodup ∧
          ((pairs st2.heap (l ++ [a])).map Prod.snd).Nodup) := by
  obtain ⟨ptr, hp⟩ := strrchr_of_local_form d hlocal
  obtain ⟨st2, hins, hlist, hpairs⟩ :=
    x11_callback_insert_spec fuel st channel env.socket l a hl hfresh hfuel
  refine ⟨st2, ?_, hlist, hpairs, ?_⟩
  · rw [x11_callback_connected fuel env st channel d ptr hd hlocal htemp hsocket hp
      (hconn ptr hp), hnode, hins]
  · intro hchans hsocks hchan hsock
    constructor
    · rw [hpairs, List.map_append, List.nodup_append]
      refine ⟨hchans, by simp, ?_⟩
      intro c hc hc2
      have : c = channel := by simpa using hc2
      exact hchan (this ▸ hc)
    · rw [hpairs, List.map_append, List.nodup_append]
      refine ⟨hsocks, by simp, ?_⟩
      intro c hc hc2
      have : c = env.socket := by simpa using hc2
      exact hsock (this ▸ hc)

theorem x11_callback_keeps_unique_witness :
    (IsList reg3.heap reg3.gp_x11_chan [10, 20, 30] ∧ (local_env 9 40).node = some 40 ∧
        reg3.heap 40 = none ∧ [10, 20, 30].length ≤ 3 ∧
        (local_env 9 40).display = some [':', '0'] ∧ local_form [':', '0'] ∧
        (local_env 9 40).temp_buff = true ∧
        (local_env 9 40).socket ≠ LIBSSH2_INVALID_SOCKET ∧
        ∀ ptr, strrchr [':', '0'] ':' = some ptr →
          (local_env 9 40).connect (local_env 9 40).socket (atoi ptr.tail) ≠ -1) ∧
      ∃ st2, x11_callback 3 (local_env 9 40) reg3 4 = .ok (st2, []) ∧
        IsList st2.heap st2.gp_x11_chan [10, 20, 30, 40] ∧
        pairs st2.heap [10, 20, 30, 40] = [(1, 5), (2, 6), (3, 7), (4, 9)] ∧
        ((pairs st2.heap [10, 20, 30, 40]).map Prod.fst).Nodup ∧
        ((pairs st2.heap [10, 20, 30, 40]).map Prod.snd).Nodup := by
  have hconn : ∀ ptr, strrchr [':', '0'] ':' = some ptr →
      (local_env 9 40).connect (local_env 9 40).socket (atoi ptr.tail) ≠ -1 := by
    intro ptr _
    simp [local_env]
  refine ⟨⟨by decide, rfl, rfl, by decide, rfl, Or.inr rfl, rfl, by decide, hconn⟩, ?_⟩
  obtain ⟨st2, h1, h2, h3, h4⟩ :=
    x11_callback_keeps_unique 3 (local_env 9 40) reg3 4 [10, 20, 30] 40 [':', '0']
      (by decide) rfl rfl (by decide) rfl (Or.inr rfl) rfl (by decide) hconn
  have h5 := h4 (by decide) (by decide) (by decide) (by decide)
  exact ⟨st2, h1, h2, h3, h5.1, h5.2⟩

end X11
